import Mathlib

/-!
Verification of the color-model conversion engine of ColorPy
(`colormodels.py`), shallowly embedded over the reals.

Python floats are modelled as real numbers; fallible operations
(those that raise `ValueError` / `ZeroDivisionError` on bad enum values)
return `Option`.  NumPy 3-vectors are modelled as triples `ℝ × ℝ × ℝ`
and 3×3 matrices as the explicit structure `Mat3`; in-place mutation of
a vector argument is modelled by returning the updated vector.
-/

/-- Python `max` over a 3-component vector. -/
noncomputable def max3 (v : ℝ × ℝ × ℝ) : ℝ := max v.1 (max v.2.1 v.2.2)

/-- Python `min` over a 3-component vector. -/
noncomputable def min3 (v : ℝ × ℝ × ℝ) : ℝ := min v.1 (min v.2.1 v.2.2)

/-- Python 3 `round` (banker's rounding: ties go to the even integer). -/
noncomputable def pyround (x : ℝ) : ℤ :=
  if Int.fract x = 1 / 2 then (if 2 ∣ ⌊x⌋ then ⌊x⌋ else ⌊x⌋ + 1) else round x

/-! ### Gamma correction (module-level functions, colormodels.py lines 562-612) -/

/-- GAMMA_CORRECT_POWER = 0 -/
def GAMMA_CORRECT_POWER : ℕ := 0

/-- GAMMA_CORRECT_SRGB = 1 -/
def GAMMA_CORRECT_SRGB : ℕ := 1

/-- simple_gamma_invert (x, gamma_exponent): the simple power law. -/
noncomputable def simple_gamma_invert (x gamma_exponent : ℝ) : ℝ :=
  if x ≤ 0 then x else x ^ (1 / gamma_exponent)

/-- simple_gamma_correct (x, gamma_exponent): the simple power law. -/
noncomputable def simple_gamma_correct (x gamma_exponent : ℝ) : ℝ :=
  if x ≤ 0 then x else x ^ gamma_exponent

/-- srgb_gamma_invert (x): the sRGB standard gamma inverse correction. -/
noncomputable def srgb_gamma_invert (x : ℝ) : ℝ :=
  if x ≤ 0.00304 then 12.92 * x else 1.055 * x ^ ((1 : ℝ) / 2.4) - 0.055

/-- srgb_gamma_correct (x): the sRGB standard gamma correction. -/
noncomputable def srgb_gamma_correct (x : ℝ) : ℝ :=
  if x ≤ 0.03928 then x / 12.92 else ((x + 0.055) / 1.055) ^ (2.4 : ℝ)

/-! Definitions written from the specification text (§4.1, sRGB piecewise),
to be compared with the source functions above. -/

/-- Modelled from the spec: sRGB piecewise invert,
12.92x for x ≤ 0.00304, else 1.055 x^(1/2.4) − 0.055. -/
noncomputable def srgbInvertSpec (x : ℝ) : ℝ :=
  if x ≤ 0.00304 then 12.92 * x else 1.055 * x ^ ((1 : ℝ) / 2.4) - 0.055

/-- Modelled from the spec: sRGB piecewise correct,
x/12.92 for x ≤ 0.03928, else ((x+0.055)/1.055)^2.4. -/
noncomputable def srgbCorrectSpec (x : ℝ) : ℝ :=
  if x ≤ 0.03928 then x / 12.92 else ((x + 0.055) / 1.055) ^ (2.4 : ℝ)

/-! ### The parametric GammaCorrect model (colormodels.py lines 618-752) -/

/-- The fields of a `GammaCorrect` object. -/
structure GammaCorrect where
  gamma : ℝ
  a : ℝ
  K0 : ℝ
  Phi : ℝ
  one_plus_a : ℝ
  inv_gamma : ℝ
  K0_over_Phi : ℝ

/-- GammaCorrect.set_continuous_slope: set K0 and Phi to enforce slope
continuity at the edge of black. -/
noncomputable def GammaCorrect.set_continuous_slope (s : GammaCorrect) : GammaCorrect :=
  let K0_better := s.a / (s.gamma - 1)
  let Phi_term_1 := s.one_plus_a ^ s.gamma
  let Phi_term_2 := (s.gamma - 1) ^ (s.gamma - 1)
  let Phi_term_3 := s.a ^ (s.gamma - 1)
  let Phi_term_4 := s.gamma ^ s.gamma
  let Phi_better := (Phi_term_1 * Phi_term_2) / (Phi_term_3 * Phi_term_4)
  { s with K0 := K0_better, Phi := Phi_better, K0_over_Phi := K0_better / Phi_better }

/-- GammaCorrect.improve_Phi: recompute Phi to enforce value continuity
at the edge of black. -/
noncomputable def GammaCorrect.improve_Phi (s : GammaCorrect) : GammaCorrect :=
  let lhs_term := (s.K0 + s.a) / s.one_plus_a
  let lhs := lhs_term ^ s.gamma
  let Phi_better := s.K0 / lhs
  { s with Phi := Phi_better, K0_over_Phi := s.K0 / Phi_better }

/-- GammaCorrect.__init__: store the parameters, precompute the derived
fields, run set_continuous_slope, then four improve_Phi iterations. -/
noncomputable def GammaCorrect.init (gamma a K0 Phi : ℝ) : GammaCorrect :=
  let s0 : GammaCorrect :=
    { gamma := gamma, a := a, K0 := K0, Phi := Phi,
      one_plus_a := 1 + a, inv_gamma := 1 / gamma, K0_over_Phi := K0 / Phi }
  let s1 := s0.set_continuous_slope
  (((s1.improve_Phi).improve_Phi).improve_Phi).improve_Phi

/-- GammaCorrect.display_from_linear. -/
noncomputable def GammaCorrect.display_from_linear (s : GammaCorrect) (C_linear : ℝ) : ℝ :=
  if C_linear < s.K0_over_Phi then s.Phi * C_linear
  else s.one_plus_a * C_linear ^ s.inv_gamma - s.a

/-- GammaCorrect.linear_from_display. -/
noncomputable def GammaCorrect.linear_from_display (s : GammaCorrect) (C_display : ℝ) : ℝ :=
  if C_display < s.K0 then C_display / s.Phi
  else ((C_display + s.a) / s.one_plus_a) ^ s.gamma

/-! ### Luminance and Luv/Lab utilities (colormodels.py lines 442-522) -/

/-- L_LUM_A = 116.0 -/
noncomputable def L_LUM_A : ℝ := 116
/-- L_LUM_B = 16.0 -/
noncomputable def L_LUM_B : ℝ := 16
/-- L_LUM_C = 903.29629551307664 -/
noncomputable def L_LUM_C : ℝ := 903.29629551307664
/-- L_LUM_CUTOFF = 0.008856 -/
noncomputable def L_LUM_CUTOFF : ℝ := 0.008856

/-- L_luminance (y): L coefficient for the Luv and Lab models. -/
noncomputable def L_luminance (y : ℝ) : ℝ :=
  if L_LUM_CUTOFF < y then L_LUM_A * y ^ ((1 : ℝ) / 3) - L_LUM_B
  else L_LUM_C * y

/-- L_luminance_inverse (L). -/
noncomputable def L_luminance_inverse (L : ℝ) : ℝ :=
  if L ≤ L_LUM_C * L_LUM_CUTOFF then L / L_LUM_C
  else ((L + L_LUM_B) / L_LUM_A) ^ (3 : ℕ)

/-- uv_primes (xyz): the u', v' chromaticity primaries of an xyz color;
(0,0) when the denominator x + 15y + 3z vanishes. -/
noncomputable def uv_primes (xyz : ℝ × ℝ × ℝ) : ℝ × ℝ :=
  let w_denom := xyz.1 + 15 * xyz.2.1 + 3 * xyz.2.2
  if w_denom ≠ 0 then (4 * xyz.1 / w_denom, 9 * xyz.2.1 / w_denom)
  else (0, 0)

/-- uv_primes_inverse (u_prime, v_prime, y). -/
noncomputable def uv_primes_inverse (u_prime v_prime y : ℝ) : ℝ × ℝ × ℝ :=
  if v_prime ≠ 0 then
    let w_denom := 9 * y / v_prime
    let x := 0.25 * u_prime * w_denom
    (x, y, (w_denom - x - 15 * y) / 3)
  else (0, 0, 0)

/-- xyz_normalize_Y1 (xyz): scale so that the y component is 1.0
(identity when y = 0); the returned vector is the mutated argument. -/
noncomputable def xyz_normalize_Y1 (xyz : ℝ × ℝ × ℝ) : ℝ × ℝ × ℝ :=
  if xyz.2.1 ≠ 0 then
    let scale := 1 / xyz.2.1
    (xyz.1 * scale, xyz.2.1 * scale, xyz.2.2 * scale)
  else xyz

/-! ### 3×3 matrices over ℝ (NumPy arrays in the source) -/

/-- A 3×3 real matrix, rows (a b c), (d e f), (g h i). -/
@[ext]
structure Mat3 where
  a : ℝ
  b : ℝ
  c : ℝ
  d : ℝ
  e : ℝ
  f : ℝ
  g : ℝ
  h : ℝ
  i : ℝ

/-- Matrix-vector product (numpy.dot of a 3×3 matrix with a 3-vector). -/
noncomputable def Mat3.mulVec (M : Mat3) (v : ℝ × ℝ × ℝ) : ℝ × ℝ × ℝ :=
  (M.a * v.1 + M.b * v.2.1 + M.c * v.2.2,
   M.d * v.1 + M.e * v.2.1 + M.f * v.2.2,
   M.g * v.1 + M.h * v.2.1 + M.i * v.2.2)

/-- Matrix-matrix product. -/
noncomputable def Mat3.mul (M N : Mat3) : Mat3 :=
  { a := M.a * N.a + M.b * N.d + M.c * N.g
    b := M.a * N.b + M.b * N.e + M.c * N.h
    c := M.a * N.c + M.b * N.f + M.c * N.i
    d := M.d * N.a + M.e * N.d + M.f * N.g
    e := M.d * N.b + M.e * N.e + M.f * N.h
    f := M.d * N.c + M.e * N.f + M.f * N.i
    g := M.g * N.a + M.h * N.d + M.i * N.g
    h := M.g * N.b + M.h * N.e + M.i * N.h
    i := M.g * N.c + M.h * N.f + M.i * N.i }

/-- The identity matrix. -/
noncomputable def Mat3.id : Mat3 :=
  { a := 1, b := 0, c := 0, d := 0, e := 1, f := 0, g := 0, h := 0, i := 1 }

/-- Determinant. -/
noncomputable def Mat3.det (M : Mat3) : ℝ :=
  M.a * (M.e * M.i - M.f * M.h) - M.b * (M.d * M.i - M.f * M.g)
    + M.c * (M.d * M.h - M.e * M.g)

/-- Matrix inverse by cofactors (numpy.linalg.inv on a nonsingular matrix). -/
noncomputable def Mat3.inv (M : Mat3) : Mat3 :=
  let dt := M.det
  { a := (M.e * M.i - M.f * M.h) / dt
    b := (M.c * M.h - M.b * M.i) / dt
    c := (M.b * M.f - M.c * M.e) / dt
    d := (M.f * M.g - M.d * M.i) / dt
    e := (M.a * M.i - M.c * M.g) / dt
    f := (M.c * M.d - M.a * M.f) / dt
    g := (M.d * M.h - M.e * M.g) / dt
    h := (M.b * M.g - M.a * M.h) / dt
    i := (M.a * M.e - M.b * M.d) / dt }

/-- numpy.column_stack: the matrix whose columns are the three vectors. -/
noncomputable def Mat3.ofColumns (c1 c2 c3 : ℝ × ℝ × ℝ) : Mat3 :=
  { a := c1.1, b := c2.1, c := c3.1
    d := c1.2.1, e := c2.2.1, f := c3.2.1
    g := c1.2.2, h := c2.2.2, i := c3.2.2 }

/-- numpy.linalg.solve (A, b) for a nonsingular matrix: the unique
solution A⁻¹ b of A x = b. -/
noncomputable def Mat3.solve (A : Mat3) (b : ℝ × ℝ × ℝ) : ℝ × ℝ × ℝ :=
  A.inv.mulVec b

/-- Elementwise scaling of a vector by a scalar (numpy array * float). -/
noncomputable def smul3 (k : ℝ) (v : ℝ × ℝ × ℝ) : ℝ × ℝ × ℝ :=
  (k * v.1, k * v.2.1, k * v.2.2)

/-- ColorConverter.init_rgb_xyz: build the xyz_from_rgb and rgb_from_xyz
matrices from the three phosphor chromaticities and the white point.
Returns (xyz_from_rgb_matrix, rgb_from_xyz_matrix). -/
noncomputable def init_rgb_xyz (phosphor_red phosphor_green phosphor_blue white_point :
    ℝ × ℝ × ℝ) : Mat3 × Mat3 :=
  let phosphor_matrix := Mat3.ofColumns phosphor_red phosphor_green phosphor_blue
  let normalized_white := xyz_normalize_Y1 white_point
  let intensities := phosphor_matrix.solve normalized_white
  let xyz_from_rgb_matrix := Mat3.ofColumns
    (smul3 intensities.1 phosphor_red)
    (smul3 intensities.2.1 phosphor_green)
    (smul3 intensities.2.2 phosphor_blue)
  (xyz_from_rgb_matrix, xyz_from_rgb_matrix.inv)

/-! ### Color clipping method selectors (colormodels.py lines 781-782) -/

/-- CLIP_CLAMP_TO_ZERO = 0 -/
def CLIP_CLAMP_TO_ZERO : ℕ := 0

/-- CLIP_ADD_WHITE = 1 -/
def CLIP_ADD_WHITE : ℕ := 1

/-! ### The ColorConverter object (colormodels.py lines 860-1220) -/

/-- The state of a `ColorConverter` after construction. -/
structure ColorConverter where
  xyz_from_rgb_matrix : Mat3
  rgb_from_xyz_matrix : Mat3
  reference_white : ℝ × ℝ × ℝ
  reference_u_prime : ℝ
  reference_v_prime : ℝ
  gamma_method : ℕ
  gamma_value : ℝ
  clip_method : ℕ
  bit_depth : ℕ
  max_value : ℕ

/-- ColorConverter.rgb_from_xyz. -/
noncomputable def ColorConverter.rgb_from_xyz (cc : ColorConverter) (xyz : ℝ × ℝ × ℝ) :
    ℝ × ℝ × ℝ :=
  cc.rgb_from_xyz_matrix.mulVec xyz

/-- ColorConverter.xyz_from_rgb. -/
noncomputable def ColorConverter.xyz_from_rgb (cc : ColorConverter) (rgb : ℝ × ℝ × ℝ) :
    ℝ × ℝ × ℝ :=
  cc.xyz_from_rgb_matrix.mulVec rgb

/-- ColorConverter.luv_from_xyz. -/
noncomputable def ColorConverter.luv_from_xyz (cc : ColorConverter) (xyz : ℝ × ℝ × ℝ) :
    ℝ × ℝ × ℝ :=
  let y_p := xyz.2.1 / cc.reference_white.2.1
  let up := uv_primes xyz
  let L := L_luminance y_p
  (L, 13 * L * (up.1 - cc.reference_u_prime), 13 * L * (up.2 - cc.reference_v_prime))

/-- ColorConverter.xyz_from_luv. -/
noncomputable def ColorConverter.xyz_from_luv (cc : ColorConverter) (luv : ℝ × ℝ × ℝ) :
    ℝ × ℝ × ℝ :=
  let L := luv.1
  let y := L_luminance_inverse L
  if L ≠ 0 then
    let L13 := 13 * L
    uv_primes_inverse (cc.reference_u_prime + luv.2.1 / L13)
      (cc.reference_v_prime + luv.2.2 / L13) y
  else (0, 0, 0)

/-- ColorConverter.clip_color_clamp: zero any negative component; the
returned pair is (the mutated rgb, the clipped flag). -/
noncomputable def ColorConverter.clip_color_clamp (_cc : ColorConverter) (rgb : ℝ × ℝ × ℝ) :
    (ℝ × ℝ × ℝ) × Bool :=
  let r := if rgb.1 < 0 then (0 : ℝ) else rgb.1
  let g := if rgb.2.1 < 0 then (0 : ℝ) else rgb.2.1
  let b := if rgb.2.2 < 0 then (0 : ℝ) else rgb.2.2
  let clipped := if rgb.1 < 0 ∨ rgb.2.1 < 0 ∨ rgb.2.2 < 0 then true else false
  ((r, g, b), clipped)

/-- ColorConverter.clip_color_whiten: add white as necessary to remove
any negative component; the returned pair is (the mutated rgb, the
clipped flag). -/
noncomputable def ColorConverter.clip_color_whiten (_cc : ColorConverter) (rgb : ℝ × ℝ × ℝ) :
    (ℝ × ℝ × ℝ) × Bool :=
  let rgb_min := min 0 (min3 rgb)
  let rgb_max := max3 rgb
  let scaling := if 0 < rgb_max then rgb_max / (rgb_max - rgb_min) else 1
  if rgb_min < 0 then
    ((scaling * (rgb.1 - rgb_min), scaling * (rgb.2.1 - rgb_min),
      scaling * (rgb.2.2 - rgb_min)), true)
  else (rgb, false)

/-- ColorConverter.clip_color_intensity: uniformly scale down an
over-bright color; the returned pair is (the mutated rgb, the clipped
flag). -/
noncomputable def ColorConverter.clip_color_intensity (cc : ColorConverter) (rgb : ℝ × ℝ × ℝ) :
    (ℝ × ℝ × ℝ) × Bool :=
  let rgb_max := max3 rgb
  let intensity_cutoff := 1 + 0.5 / (cc.max_value : ℝ)
  if intensity_cutoff < rgb_max then
    let scaling := intensity_cutoff / rgb_max
    ((scaling * rgb.1, scaling * rgb.2.1, scaling * rgb.2.2), true)
  else (rgb, false)

/-- ColorConverter.gamma_display_from_linear_component: dispatch on the
gamma method; `none` models the ValueError raised on an unrecognized
method. -/
noncomputable def ColorConverter.gamma_display_from_linear_component (cc : ColorConverter)
    (x : ℝ) : Option ℝ :=
  if cc.gamma_method = GAMMA_CORRECT_POWER then some (simple_gamma_invert x cc.gamma_value)
  else if cc.gamma_method = GAMMA_CORRECT_SRGB then some (srgb_gamma_invert x)
  else none

/-- ColorConverter.gamma_linear_from_display_component. -/
noncomputable def ColorConverter.gamma_linear_from_display_component (cc : ColorConverter)
    (x : ℝ) : Option ℝ :=
  if cc.gamma_method = GAMMA_CORRECT_POWER then some (simple_gamma_correct x cc.gamma_value)
  else if cc.gamma_method = GAMMA_CORRECT_SRGB then some (srgb_gamma_correct x)
  else none

/-- ColorConverter.gamma_display_from_linear: gamma adjust all three
components. -/
noncomputable def ColorConverter.gamma_display_from_linear (cc : ColorConverter)
    (rgb : ℝ × ℝ × ℝ) : Option (ℝ × ℝ × ℝ) := do
  let r ← cc.gamma_display_from_linear_component rgb.1
  let g ← cc.gamma_display_from_linear_component rgb.2.1
  let b ← cc.gamma_display_from_linear_component rgb.2.2
  pure (r, g, b)

/-- ColorConverter.scale_int_from_float: round each component to an
integer and clamp into 0 .. max_value. -/
noncomputable def ColorConverter.scale_int_from_float (cc : ColorConverter)
    (rgb : ℝ × ℝ × ℝ) : ℤ × ℤ × ℤ :=
  let ir := pyround ((cc.max_value : ℝ) * rgb.1)
  let ig := pyround ((cc.max_value : ℝ) * rgb.2.1)
  let ib := pyround ((cc.max_value : ℝ) * rgb.2.2)
  (min (cc.max_value : ℤ) (max 0 ir),
   min (cc.max_value : ℤ) (max 0 ig),
   min (cc.max_value : ℤ) (max 0 ib))

/-- ColorConverter.scale_float_from_int. -/
noncomputable def ColorConverter.scale_float_from_int (cc : ColorConverter)
    (irgb : ℤ × ℤ × ℤ) : ℝ × ℝ × ℝ :=
  ((irgb.1 : ℝ) / (cc.max_value : ℝ),
   (irgb.2.1 : ℝ) / (cc.max_value : ℝ),
   (irgb.2.2 : ℝ) / (cc.max_value : ℝ))

/-- ColorConverter.clip_rgb_color: chromaticity clip, intensity clip,
gamma inversion, quantization.  `none` models the ValueError raised on
an unrecognized clip or gamma method. -/
noncomputable def ColorConverter.clip_rgb_color (cc : ColorConverter)
    (rgb_color : ℝ × ℝ × ℝ) : Option ((ℤ × ℤ × ℤ) × (Bool × Bool)) := do
  let chroma ←
    if cc.clip_method = CLIP_CLAMP_TO_ZERO then some (cc.clip_color_clamp rgb_color)
    else if cc.clip_method = CLIP_ADD_WHITE then some (cc.clip_color_whiten rgb_color)
    else none
  let clipped_chromaticity := chroma.2
  let intens := cc.clip_color_intensity chroma.1
  let clipped_intensity := intens.2
  let display ← cc.gamma_display_from_linear intens.1
  let irgb := cc.scale_int_from_float display
  pure (irgb, (clipped_chromaticity, clipped_intensity))

/-- brightest_rgb_from_xyz (xyz, max_component): convert to rgb, then
scale so the maximum component becomes max_component (unless the
maximum is zero).  The module-level function reads the global converter;
here the converter is passed explicitly. -/
noncomputable def brightest_rgb_from_xyz (cc : ColorConverter) (xyz : ℝ × ℝ × ℝ)
    (max_component : ℝ := 1) : ℝ × ℝ × ℝ :=
  let rgb := cc.rgb_from_xyz xyz
  let max_rgb := max3 rgb
  if max_rgb ≠ 0 then
    let scale := max_component / max_rgb
    (scale * rgb.1, scale * rgb.2.1, scale * rgb.2.2)
  else rgb

/-! ### Hex string codec (colormodels.py lines 800-823), computable -/

/-- One uppercase hexadecimal digit, as produced by Python's %X format. -/
def hexDigitChar (n : ℕ) : Char :=
  if n < 10 then Char.ofNat (48 + n) else Char.ofNat (55 + n)

/-- Python '%02X' applied to an integer in 0 .. 255: exactly two
uppercase hexadecimal digits. -/
def hex2 (n : ℤ) : String :=
  String.mk [hexDigitChar (n.toNat / 16), hexDigitChar (n.toNat % 16)]

/-- irgb_string_from_irgb (irgb): clamp each component into 0 .. 255 in
place, then format as a hex string.  The first component of the result
is the caller's array after the call (the in-place clamp), the second
is the returned string. -/
def irgb_string_from_irgb (irgb : ℤ × ℤ × ℤ) : (ℤ × ℤ × ℤ) × String :=
  let r := min 255 (max 0 irgb.1)
  let g := min 255 (max 0 irgb.2.1)
  let b := min 255 (max 0 irgb.2.2)
  ((r, g, b), "#" ++ hex2 r ++ hex2 g ++ hex2 b)

/-- The value of one hexadecimal digit character (either case), as
accepted by Python's int(_, 16). -/
def hexDigitVal (ch : Char) : Option ℕ :=
  if '0' ≤ ch ∧ ch ≤ '9' then some (ch.toNat - 48)
  else if 'A' ≤ ch ∧ ch ≤ 'F' then some (ch.toNat - 55)
  else if 'a' ≤ ch ∧ ch ≤ 'f' then some (ch.toNat - 87)
  else none

/-- Python int(s, 16) on a two-character digit pair; `none` models the
ValueError raised on a character that is not a hexadecimal digit. -/
def parseHexPair (c1 c2 : Char) : Option ℤ := do
  let hi ← hexDigitVal c1
  let lo ← hexDigitVal c2
  pure ((16 * hi + lo : ℕ) : ℤ)

/-- irgb_from_irgb_string (irgb_string): decode a hex color string;
`none` models the ValueError raised on malformed input. -/
def irgb_from_irgb_string (irgb_string : String) : Option (ℤ × ℤ × ℤ) :=
  if irgb_string.length ≠ 7 then none
  else if irgb_string.data.head? ≠ some '#' then none
  else
    match irgb_string.data with
    | [_, c1, c2, c3, c4, c5, c6] => do
        let ir ← parseHexPair c1 c2
        let ig ← parseHexPair c3 c4
        let ib ← parseHexPair c5 c6
        pure (ir, ig, ib)
    | _ => none

/-! ### A concrete converter for test instances.

This is the `ColorConverter` state produced by `ColorConverter.__init__`
with the identity phosphor configuration red=(1,0,0), green=(0,1,0),
blue=(0,0,1), white=(1/3,1/3,1/3) and the default gamma method
(GAMMA_CORRECT_SRGB), clip method (CLIP_ADD_WHITE) and bit depth 8:
the white point normalizes to (1,1,1), the solved intensities are all 1,
both matrices are the identity, and uv_primes (1,1,1) = (4/19, 9/19). -/

/-- A concrete converter with identity basis matrices, sRGB gamma,
add-white clipping and bit depth 8. -/
noncomputable def testConverter : ColorConverter :=
  { xyz_from_rgb_matrix := Mat3.id
    rgb_from_xyz_matrix := Mat3.id
    reference_white := (1, 1, 1)
    reference_u_prime := 4 / 19
    reference_v_prime := 9 / 19
    gamma_method := GAMMA_CORRECT_SRGB
    gamma_value := 2.2
    clip_method := CLIP_ADD_WHITE
    bit_depth := 8
    max_value := 255 }

/-! ### Claim theorems -/

/-- C3: srgb_gamma_invert is 12.92·x for x ≤ 0.00304 and
1.055·x^(1/2.4) − 0.055 otherwise, and srgb_gamma_correct is x/12.92
for x ≤ 0.03928 and ((x+0.055)/1.055)^2.4 otherwise, with exactly these
two asymmetric breakpoints: the source functions agree everywhere with
the piecewise definitions written from the spec text. -/
theorem srgb_gamma_matches_spec (x : ℝ) :
    srgb_gamma_invert x = srgbInvertSpec x ∧ srgb_gamma_correct x = srgbCorrectSpec x :=
  ⟨rfl, rfl⟩

/-- C5: black is an exact fixed point of the Luv conversions: for any
converter state, luv_from_xyz (0,0,0) = (0,0,0) and
xyz_from_luv (0,0,0) = (0,0,0), exactly. -/
theorem luv_black_fixed_point (cc : ColorConverter) :
    cc.luv_from_xyz (0, 0, 0) = (0, 0, 0) ∧ cc.xyz_from_luv (0, 0, 0) = (0, 0, 0) := by
  constructor
  · simp [ColorConverter.luv_from_xyz, uv_primes, L_luminance, L_LUM_CUTOFF, L_LUM_C]
    norm_num
  · simp [ColorConverter.xyz_from_luv]

/-- C9: irgb_string_from_irgb clamps the caller's array in place: the
array after the call holds each component clamped into 0 .. 255 (with no
flag and no error), so an out-of-range component such as 300 or -5 is
silently overwritten. -/
theorem irgb_string_from_irgb_clamps_in_place (irgb : ℤ × ℤ × ℤ) :
    (irgb_string_from_irgb irgb).1 =
      (min 255 (max 0 irgb.1), min 255 (max 0 irgb.2.1), min 255 (max 0 irgb.2.2)) ∧
    (0 ≤ (irgb_string_from_irgb irgb).1.1 ∧ (irgb_string_from_irgb irgb).1.1 ≤ 255 ∧
     0 ≤ (irgb_string_from_irgb irgb).1.2.1 ∧ (irgb_string_from_irgb irgb).1.2.1 ≤ 255 ∧
     0 ≤ (irgb_string_from_irgb irgb).1.2.2 ∧ (irgb_string_from_irgb irgb).1.2.2 ≤ 255) ∧
    (irgb_string_from_irgb (300, -5, 100)).1 = (255, 0, 100) := by
  refine ⟨rfl, ?_, by decide⟩
  simp only [irgb_string_from_irgb]
  omega

/-- C10: the decoder accepts lowercase hexadecimal digits: decoding the
well-formed 7-character string "#ab13d2" succeeds and yields
(171, 19, 210) rather than failing with a format error. -/
theorem irgb_from_irgb_string_lowercase :
    irgb_from_irgb_string "#ab13d2" = some (171, 19, 210) := by decide

/-- Helper for C2: with K0 = a/(γ−1), the Phi value recomputed by
improve_Phi coincides with the closed-form slope-continuity value. -/
theorem phi_improve_fixed {γ a : ℝ} (hγ : 1 < γ) (ha : 0 < a) :
    (a / (γ - 1)) / (((a / (γ - 1) + a) / (1 + a)) ^ γ) =
      ((1 + a) ^ γ * (γ - 1) ^ (γ - 1)) / (a ^ (γ - 1) * γ ^ γ) := by
  have hγ1 : (0 : ℝ) < γ - 1 := by linarith
  have hγ0 : (0 : ℝ) < γ := by linarith
  have h1a : (0 : ℝ) < 1 + a := by linarith
  have hbase : (a / (γ - 1) + a) / (1 + a) = a * γ / ((γ - 1) * (1 + a)) := by
    field_simp
    ring
  rw [hbase, Real.div_rpow (by positivity) (by positivity),
    Real.mul_rpow ha.le hγ0.le, Real.mul_rpow hγ1.le h1a.le,
    Real.rpow_sub ha, Real.rpow_sub hγ1, Real.rpow_one, Real.rpow_one]
  have h1 : a ^ γ ≠ 0 := (Real.rpow_pos_of_pos ha γ).ne'
  have h2 : γ ^ γ ≠ 0 := (Real.rpow_pos_of_pos hγ0 γ).ne'
  have h3 : (γ - 1) ^ γ ≠ 0 := (Real.rpow_pos_of_pos hγ1 γ).ne'
  have h4 : (1 + a) ^ γ ≠ 0 := (Real.rpow_pos_of_pos h1a γ).ne'
  field_simp
  ring

/-- C2: for any GammaCorrect constructed with gamma > 1 and offset
a > 0, whatever K0 and Phi were supplied, after construction the stored
K0 is a/(gamma−1) and the stored Phi is
(1+a)^gamma·(gamma−1)^(gamma−1)/(a^(gamma−1)·gamma^gamma): the
construction-time derivation overwrites the supplied values and the four
improve_Phi iterations leave them unchanged. -/
theorem gammaCorrect_init_derives_K0_Phi (gamma a K0 Phi : ℝ)
    (hγ : 1 < gamma) (ha : 0 < a) :
    (GammaCorrect.init gamma a K0 Phi).K0 = a / (gamma - 1) ∧
    (GammaCorrect.init gamma a K0 Phi).Phi =
      ((1 + a) ^ gamma * (gamma - 1) ^ (gamma - 1)) /
        (a ^ (gamma - 1) * gamma ^ gamma) := by
  constructor
  · rfl
  · exact phi_improve_fixed hγ ha

/-- Witness for C2 at the sRGB parameters gamma = 2.4, a = 0.055,
supplied K0 = 0.03928, Phi = 12.92. -/
theorem gammaCorrect_init_derives_K0_Phi_witness :
    ((1 : ℝ) < 2.4 ∧ (0 : ℝ) < 0.055) ∧
    ((GammaCorrect.init 2.4 0.055 0.03928 12.92).K0 = 0.055 / (2.4 - 1) ∧
     (GammaCorrect.init 2.4 0.055 0.03928 12.92).Phi =
       ((1 + 0.055) ^ (2.4 : ℝ) * ((2.4 : ℝ) - 1) ^ ((2.4 : ℝ) - 1)) /
         ((0.055 : ℝ) ^ ((2.4 : ℝ) - 1) * (2.4 : ℝ) ^ (2.4 : ℝ))) :=
  ⟨⟨by norm_num, by norm_num⟩,
    gammaCorrect_init_derives_K0_Phi 2.4 0.055 0.03928 12.92 (by norm_num) (by norm_num)⟩

/-- Cramer identity: a 3×3 matrix with nonzero determinant times its
cofactor inverse is the identity. -/
theorem mat3_mul_inv (M : Mat3) (h : M.det ≠ 0) : M.mul M.inv = Mat3.id := by
  have h' : M.a * (M.e * M.i - M.f * M.h) - M.b * (M.d * M.i - M.f * M.g)
      + M.c * (M.d * M.h - M.e * M.g) ≠ 0 := by simpa [Mat3.det] using h
  ext <;> simp only [Mat3.mul, Mat3.inv, Mat3.id, Mat3.det] <;> field_simp <;> ring

/-- Cramer identity, other side. -/
theorem mat3_inv_mul (M : Mat3) (h : M.det ≠ 0) : M.inv.mul M = Mat3.id := by
  have h' : M.a * (M.e * M.i - M.f * M.h) - M.b * (M.d * M.i - M.f * M.g)
      + M.c * (M.d * M.h - M.e * M.g) ≠ 0 := by simpa [Mat3.det] using h
  ext <;> simp only [Mat3.mul, Mat3.inv, Mat3.id, Mat3.det] <;> field_simp <;> ring

/-- Vector round trip through a matrix and its cofactor inverse. -/
theorem mat3_mulVec_inv (M : Mat3) (h : M.det ≠ 0) (v : ℝ × ℝ × ℝ) :
    M.mulVec (M.inv.mulVec v) = v := by
  have h' : M.a * (M.e * M.i - M.f * M.h) - M.b * (M.d * M.i - M.f * M.g)
      + M.c * (M.d * M.h - M.e * M.g) ≠ 0 := by simpa [Mat3.det] using h
  obtain ⟨x, y, z⟩ := v
  simp only [Mat3.mulVec, Mat3.inv, Mat3.det, Prod.mk.injEq]
  refine ⟨?_, ?_, ?_⟩ <;> (field_simp; ring)

/-- Vector round trip, other side. -/
theorem mat3_inv_mulVec (M : Mat3) (h : M.det ≠ 0) (v : ℝ × ℝ × ℝ) :
    M.inv.mulVec (M.mulVec v) = v := by
  have h' : M.a * (M.e * M.i - M.f * M.h) - M.b * (M.d * M.i - M.f * M.g)
      + M.c * (M.d * M.h - M.e * M.g) ≠ 0 := by simpa [Mat3.det] using h
  obtain ⟨x, y, z⟩ := v
  simp only [Mat3.mulVec, Mat3.inv, Mat3.det, Prod.mk.injEq]
  refine ⟨?_, ?_, ?_⟩ <;> (field_simp; ring)

/-- C4: when the configuration is non-singular (the built xyz_from_rgb
matrix has nonzero determinant), the two matrices built by init_rgb_xyz
are mutually inverse, and both vector round trips reconstruct every
linear rgb vector exactly. -/
theorem init_rgb_xyz_matrices_mutually_inverse
    (red green blue white : ℝ × ℝ × ℝ)
    (h : (init_rgb_xyz red green blue white).1.det ≠ 0) :
    (init_rgb_xyz red green blue white).1.mul (init_rgb_xyz red green blue white).2 =
      Mat3.id ∧
    (init_rgb_xyz red green blue white).2.mul (init_rgb_xyz red green blue white).1 =
      Mat3.id ∧
    ∀ rgb : ℝ × ℝ × ℝ,
      (init_rgb_xyz red green blue white).1.mulVec
          ((init_rgb_xyz red green blue white).2.mulVec rgb) = rgb ∧
      (init_rgb_xyz red green blue white).2.mulVec
          ((init_rgb_xyz red green blue white).1.mulVec rgb) = rgb := by
  have h2 : (init_rgb_xyz red green blue white).2 =
      (init_rgb_xyz red green blue white).1.inv := rfl
  rw [h2]
  exact ⟨mat3_mul_inv _ h, mat3_inv_mul _ h,
    fun rgb => ⟨mat3_mulVec_inv _ h rgb, mat3_inv_mulVec _ h rgb⟩⟩

/-- Witness for C4 at the identity phosphor configuration. -/
theorem init_rgb_xyz_matrices_mutually_inverse_witness :
    (init_rgb_xyz (1, 0, 0) (0, 1, 0) (0, 0, 1) (1/3, 1/3, 1/3)).1.det ≠ 0 ∧
    ((init_rgb_xyz (1, 0, 0) (0, 1, 0) (0, 0, 1) (1/3, 1/3, 1/3)).1.mul
        (init_rgb_xyz (1, 0, 0) (0, 1, 0) (0, 0, 1) (1/3, 1/3, 1/3)).2 = Mat3.id ∧
     (init_rgb_xyz (1, 0, 0) (0, 1, 0) (0, 0, 1) (1/3, 1/3, 1/3)).2.mul
        (init_rgb_xyz (1, 0, 0) (0, 1, 0) (0, 0, 1) (1/3, 1/3, 1/3)).1 = Mat3.id ∧
     ∀ rgb : ℝ × ℝ × ℝ,
       (init_rgb_xyz (1, 0, 0) (0, 1, 0) (0, 0, 1) (1/3, 1/3, 1/3)).1.mulVec
           ((init_rgb_xyz (1, 0, 0) (0, 1, 0) (0, 0, 1) (1/3, 1/3, 1/3)).2.mulVec rgb) =
         rgb ∧
       (init_rgb_xyz (1, 0, 0) (0, 1, 0) (0, 0, 1) (1/3, 1/3, 1/3)).2.mulVec
           ((init_rgb_xyz (1, 0, 0) (0, 1, 0) (0, 0, 1) (1/3, 1/3, 1/3)).1.mulVec rgb) =
         rgb) := by
  have h : (init_rgb_xyz (1, 0, 0) (0, 1, 0) (0, 0, 1) (1/3, 1/3, 1/3)).1.det ≠ 0 := by
    norm_num [init_rgb_xyz, Mat3.ofColumns, Mat3.det, Mat3.inv, Mat3.solve,
      Mat3.mulVec, xyz_normalize_Y1, smul3]
  exact ⟨h, init_rgb_xyz_matrices_mutually_inverse (1, 0, 0) (0, 1, 0) (0, 0, 1)
    (1/3, 1/3, 1/3) h⟩

/-- Unfolding equation for clip_color_whiten. -/
theorem clip_color_whiten_eq (cc : ColorConverter) (rgb : ℝ × ℝ × ℝ) :
    cc.clip_color_whiten rgb =
      if min 0 (min3 rgb) < 0 then
        (((if 0 < max3 rgb then max3 rgb / (max3 rgb - min 0 (min3 rgb)) else 1) *
            (rgb.1 - min 0 (min3 rgb)),
          (if 0 < max3 rgb then max3 rgb / (max3 rgb - min 0 (min3 rgb)) else 1) *
            (rgb.2.1 - min 0 (min3 rgb)),
          (if 0 < max3 rgb then max3 rgb / (max3 rgb - min 0 (min3 rgb)) else 1) *
            (rgb.2.2 - min 0 (min3 rgb))), true)
      else (rgb, false) := rfl

/-- Add-white clipping of a color with a negative component yields
nonnegative components and reports clipping. -/
theorem clip_color_whiten_nonneg_of_neg (cc : ColorConverter) (rgb : ℝ × ℝ × ℝ)
    (hneg : rgb.1 < 0 ∨ rgb.2.1 < 0 ∨ rgb.2.2 < 0) :
    (0 ≤ (cc.clip_color_whiten rgb).1.1 ∧ 0 ≤ (cc.clip_color_whiten rgb).1.2.1 ∧
      0 ≤ (cc.clip_color_whiten rgb).1.2.2) ∧ (cc.clip_color_whiten rgb).2 = true := by
  have e3 : min3 rgb = min rgb.1 (min rgb.2.1 rgb.2.2) := rfl
  have h3 : min3 rgb < 0 := by
    rw [e3]
    rcases hneg with h | h | h
    · exact lt_of_le_of_lt (min_le_left _ _) h
    · exact lt_of_le_of_lt ((min_le_right _ _).trans (min_le_left _ _)) h
    · exact lt_of_le_of_lt ((min_le_right _ _).trans (min_le_right _ _)) h
  have hmin : min 0 (min3 rgb) < 0 := lt_of_le_of_lt (min_le_right _ _) h3
  have hm1 : min 0 (min3 rgb) ≤ rgb.1 :=
    (min_le_right _ _).trans (by rw [e3]; exact min_le_left _ _)
  have hm2 : min 0 (min3 rgb) ≤ rgb.2.1 :=
    (min_le_right _ _).trans (by rw [e3]; exact (min_le_right _ _).trans (min_le_left _ _))
  have hm3 : min 0 (min3 rgb) ≤ rgb.2.2 :=
    (min_le_right _ _).trans (by rw [e3]; exact (min_le_right _ _).trans (min_le_right _ _))
  have hs : 0 ≤ (if 0 < max3 rgb then max3 rgb / (max3 rgb - min 0 (min3 rgb)) else 1) := by
    split_ifs with hmax
    · exact (div_pos hmax (by linarith)).le
    · norm_num
  rw [clip_color_whiten_eq, if_pos hmin]
  exact ⟨⟨mul_nonneg hs (by linarith), mul_nonneg hs (by linarith),
    mul_nonneg hs (by linarith)⟩, rfl⟩

/-- The quantization step always lands in 0 .. max_value. -/
theorem scale_int_from_float_bounds (cc : ColorConverter) (rgb : ℝ × ℝ × ℝ) :
    (0 ≤ (cc.scale_int_from_float rgb).1 ∧
        (cc.scale_int_from_float rgb).1 ≤ (cc.max_value : ℤ)) ∧
    (0 ≤ (cc.scale_int_from_float rgb).2.1 ∧
        (cc.scale_int_from_float rgb).2.1 ≤ (cc.max_value : ℤ)) ∧
    (0 ≤ (cc.scale_int_from_float rgb).2.2 ∧
        (cc.scale_int_from_float rgb).2.2 ≤ (cc.max_value : ℤ)) := by
  simp only [ColorConverter.scale_int_from_float]
  refine ⟨⟨?_, ?_⟩, ⟨?_, ?_⟩, ⟨?_, ?_⟩⟩ <;>
    first
      | exact le_min (Int.natCast_nonneg _) (le_max_left _ _)
      | exact min_le_left _ _

/-- With a recognized gamma method, the per-component gamma step never
fails. -/
theorem gamma_component_total (cc : ColorConverter)
    (hg : cc.gamma_method = GAMMA_CORRECT_POWER ∨ cc.gamma_method = GAMMA_CORRECT_SRGB)
    (x : ℝ) : ∃ y, cc.gamma_display_from_linear_component x = some y := by
  rcases hg with h | h <;>
    simp [ColorConverter.gamma_display_from_linear_component, h,
      GAMMA_CORRECT_POWER, GAMMA_CORRECT_SRGB]

/-- With a recognized gamma method, the gamma step on a color never
fails. -/
theorem gamma_total (cc : ColorConverter)
    (hg : cc.gamma_method = GAMMA_CORRECT_POWER ∨ cc.gamma_method = GAMMA_CORRECT_SRGB)
    (rgb : ℝ × ℝ × ℝ) : ∃ out, cc.gamma_display_from_linear rgb = some out := by
  obtain ⟨r, hr⟩ := gamma_component_total cc hg rgb.1
  obtain ⟨g, hgr⟩ := gamma_component_total cc hg rgb.2.1
  obtain ⟨b, hb⟩ := gamma_component_total cc hg rgb.2.2
  exact ⟨(r, g, b), by simp [ColorConverter.gamma_display_from_linear, hr, hgr, hb]⟩

/-- Unfolding equation for clip_color_intensity. -/
theorem clip_color_intensity_eq (cc : ColorConverter) (rgb : ℝ × ℝ × ℝ) :
    cc.clip_color_intensity rgb =
      if 1 + 0.5 / (cc.max_value : ℝ) < max3 rgb then
        (((1 + 0.5 / (cc.max_value : ℝ)) / max3 rgb * rgb.1,
          (1 + 0.5 / (cc.max_value : ℝ)) / max3 rgb * rgb.2.1,
          (1 + 0.5 / (cc.max_value : ℝ)) / max3 rgb * rgb.2.2), true)
      else (rgb, false) := rfl

/-- Under add-white clipping and a recognized gamma method, the flags
returned by clip_rgb_color are exactly the flags of the two clip
stages. -/
theorem clip_rgb_color_flags (cc : ColorConverter)
    (hcm : cc.clip_method = CLIP_ADD_WHITE)
    (hg : cc.gamma_method = GAMMA_CORRECT_POWER ∨ cc.gamma_method = GAMMA_CORRECT_SRGB)
    (rgb : ℝ × ℝ × ℝ) :
    (cc.clip_rgb_color rgb).map (fun p => p.2) =
      some ((cc.clip_color_whiten rgb).2,
        (cc.clip_color_intensity (cc.clip_color_whiten rgb).1).2) := by
  obtain ⟨out, hout⟩ :=
    gamma_total cc hg (cc.clip_color_intensity (cc.clip_color_whiten rgb).1).1
  simp [ColorConverter.clip_rgb_color, hcm, CLIP_ADD_WHITE, CLIP_CLAMP_TO_ZERO, hout]

/-- C1: under add-white clipping, any linear rgb input with a negative
component is whitened to an all-nonnegative color, clip_color_whiten
reports true, clip_rgb_color reports clipped_chromaticity = true, and no
negative channel reaches the displayed integer output. -/
theorem clip_whiten_removes_negatives (cc : ColorConverter) (rgb : ℝ × ℝ × ℝ)
    (hclip : cc.clip_method = CLIP_ADD_WHITE)
    (hg : cc.gamma_method = GAMMA_CORRECT_POWER ∨ cc.gamma_method = GAMMA_CORRECT_SRGB)
    (hneg : rgb.1 < 0 ∨ rgb.2.1 < 0 ∨ rgb.2.2 < 0) :
    (0 ≤ (cc.clip_color_whiten rgb).1.1 ∧ 0 ≤ (cc.clip_color_whiten rgb).1.2.1 ∧
      0 ≤ (cc.clip_color_whiten rgb).1.2.2) ∧
    (cc.clip_color_whiten rgb).2 = true ∧
    ∃ irgb f2, cc.clip_rgb_color rgb = some (irgb, (true, f2)) ∧
      0 ≤ irgb.1 ∧ 0 ≤ irgb.2.1 ∧ 0 ≤ irgb.2.2 := by
  obtain ⟨hnn, hflag⟩ := clip_color_whiten_nonneg_of_neg cc rgb hneg
  refine ⟨hnn, hflag, ?_⟩
  obtain ⟨out, hout⟩ :=
    gamma_total cc hg (cc.clip_color_intensity (cc.clip_color_whiten rgb).1).1
  obtain ⟨⟨h1l, _⟩, ⟨h2l, _⟩, ⟨h3l, _⟩⟩ := scale_int_from_float_bounds cc out
  refine ⟨cc.scale_int_from_float out,
    (cc.clip_color_intensity (cc.clip_color_whiten rgb).1).2, ?_, h1l, h2l, h3l⟩
  simp [ColorConverter.clip_rgb_color, hclip, CLIP_ADD_WHITE, CLIP_CLAMP_TO_ZERO,
    hout, hflag]

/-- Witness for C1 at an all-negative input (which also exercises the
scaling = 1 guard taken when the maximum component is not positive). -/
theorem clip_whiten_removes_negatives_witness :
    (testConverter.clip_method = CLIP_ADD_WHITE ∧
      (testConverter.gamma_method = GAMMA_CORRECT_POWER ∨
        testConverter.gamma_method = GAMMA_CORRECT_SRGB) ∧
      ((-1 : ℝ) < 0 ∨ (-2 : ℝ) < 0 ∨ (-1/2 : ℝ) < 0)) ∧
    ((0 ≤ (testConverter.clip_color_whiten (-1, -2, -1/2)).1.1 ∧
        0 ≤ (testConverter.clip_color_whiten (-1, -2, -1/2)).1.2.1 ∧
        0 ≤ (testConverter.clip_color_whiten (-1, -2, -1/2)).1.2.2) ∧
      (testConverter.clip_color_whiten (-1, -2, -1/2)).2 = true ∧
      ∃ irgb f2, testConverter.clip_rgb_color (-1, -2, -1/2) = some (irgb, (true, f2)) ∧
        0 ≤ irgb.1 ∧ 0 ≤ irgb.2.1 ∧ 0 ≤ irgb.2.2) :=
  ⟨⟨rfl, Or.inr rfl, Or.inl (by norm_num)⟩,
    clip_whiten_removes_negatives testConverter (-1, -2, -1/2) rfl (Or.inr rfl)
      (Or.inl (by norm_num))⟩

/-- C6: for any converter with recognized clip and gamma methods and the
derived max_value, clip_rgb_color never fails and returns an integer
triple inside 0 .. 2^bit_depth − 1 together with the two clip flags; on
the concrete default-style converter every combination of the two flags
is realized by some input. -/
theorem clip_rgb_color_total_in_range :
    (∀ (cc : ColorConverter) (rgb : ℝ × ℝ × ℝ),
      (cc.clip_method = CLIP_CLAMP_TO_ZERO ∨ cc.clip_method = CLIP_ADD_WHITE) →
      (cc.gamma_method = GAMMA_CORRECT_POWER ∨ cc.gamma_method = GAMMA_CORRECT_SRGB) →
      cc.max_value = 2 ^ cc.bit_depth - 1 →
      ∃ irgb flags, cc.clip_rgb_color rgb = some (irgb, flags) ∧
        0 ≤ irgb.1 ∧ irgb.1 ≤ ((2 ^ cc.bit_depth - 1 : ℕ) : ℤ) ∧
        0 ≤ irgb.2.1 ∧ irgb.2.1 ≤ ((2 ^ cc.bit_depth - 1 : ℕ) : ℤ) ∧
        0 ≤ irgb.2.2 ∧ irgb.2.2 ≤ ((2 ^ cc.bit_depth - 1 : ℕ) : ℤ)) ∧
    (∀ b1 b2 : Bool, ∃ rgb : ℝ × ℝ × ℝ,
      (testConverter.clip_rgb_color rgb).map (fun p => p.2) = some (b1, b2)) := by
  constructor
  · intro cc rgb hc hg hm
    rcases hc with hc | hc
    · obtain ⟨out, hout⟩ :=
        gamma_total cc hg (cc.clip_color_intensity (cc.clip_color_clamp rgb).1).1
      obtain ⟨⟨h1l, h1r⟩, ⟨h2l, h2r⟩, ⟨h3l, h3r⟩⟩ := scale_int_from_float_bounds cc out
      rw [hm] at h1r h2r h3r
      refine ⟨cc.scale_int_from_float out,
        ((cc.clip_color_clamp rgb).2,
          (cc.clip_color_intensity (cc.clip_color_clamp rgb).1).2),
        ?_, h1l, h1r, h2l, h2r, h3l, h3r⟩
      simp [ColorConverter.clip_rgb_color, hc, CLIP_ADD_WHITE, CLIP_CLAMP_TO_ZERO, hout]
    · obtain ⟨out, hout⟩ :=
        gamma_total cc hg (cc.clip_color_intensity (cc.clip_color_whiten rgb).1).1
      obtain ⟨⟨h1l, h1r⟩, ⟨h2l, h2r⟩, ⟨h3l, h3r⟩⟩ := scale_int_from_float_bounds cc out
      rw [hm] at h1r h2r h3r
      refine ⟨cc.scale_int_from_float out,
        ((cc.clip_color_whiten rgb).2,
          (cc.clip_color_intensity (cc.clip_color_whiten rgb).1).2),
        ?_, h1l, h1r, h2l, h2r, h3l, h3r⟩
      simp [ColorConverter.clip_rgb_color, hc, CLIP_ADD_WHITE, CLIP_CLAMP_TO_ZERO, hout]
  · have hmv : testConverter.max_value = 255 := rfl
    intro b1 b2
    cases b1 <;> cases b2
    · refine ⟨(1/2, 1/2, 1/2), ?_⟩
      have hw : testConverter.clip_color_whiten (1/2, 1/2, 1/2) = ((1/2, 1/2, 1/2), false) := by
        simp only [clip_color_whiten_eq]
        norm_num [min3, min_def]
      have hi : testConverter.clip_color_intensity (1/2, 1/2, 1/2) =
          ((1/2, 1/2, 1/2), false) := by
        simp only [clip_color_intensity_eq, hmv]
        norm_num [max3, max_def]
      rw [clip_rgb_color_flags testConverter rfl (Or.inr rfl), hw, hi]
    · refine ⟨(0, 0, 2), ?_⟩
      have hw : testConverter.clip_color_whiten (0, 0, 2) = ((0, 0, 2), false) := by
        simp only [clip_color_whiten_eq]
        norm_num [min3, min_def]
      have hi : (testConverter.clip_color_intensity (0, 0, 2)).2 = true := by
        simp only [clip_color_intensity_eq, hmv]
        norm_num [max3, max_def]
      rw [clip_rgb_color_flags testConverter rfl (Or.inr rfl), hw, hi]
    · refine ⟨(-1, 1/2, 1/2), ?_⟩
      have hw : testConverter.clip_color_whiten (-1, 1/2, 1/2) = ((0, 1/2, 1/2), true) := by
        simp only [clip_color_whiten_eq]
        norm_num [min3, max3, min_def, max_def]
      have hi : testConverter.clip_color_intensity (0, 1/2, 1/2) =
          ((0, 1/2, 1/2), false) := by
        simp only [clip_color_intensity_eq, hmv]
        norm_num [max3, max_def]
      rw [clip_rgb_color_flags testConverter rfl (Or.inr rfl), hw, hi]
    · refine ⟨(-1, 0, 3), ?_⟩
      have hw : testConverter.clip_color_whiten (-1, 0, 3) = ((0, 3/4, 3), true) := by
        simp only [clip_color_whiten_eq]
        norm_num [min3, max3, min_def, max_def]
      have hi : (testConverter.clip_color_intensity (0, 3/4, 3)).2 = true := by
        simp only [clip_color_intensity_eq, hmv]
        norm_num [max3, max_def]
      rw [clip_rgb_color_flags testConverter rfl (Or.inr rfl), hw, hi]

/-- Witness for C6 on the concrete converter. -/
theorem clip_rgb_color_total_in_range_witness :
    ((testConverter.clip_method = CLIP_CLAMP_TO_ZERO ∨
        testConverter.clip_method = CLIP_ADD_WHITE) ∧
      (testConverter.gamma_method = GAMMA_CORRECT_POWER ∨
        testConverter.gamma_method = GAMMA_CORRECT_SRGB) ∧
      testConverter.max_value = 2 ^ testConverter.bit_depth - 1) ∧
    (∃ irgb flags, testConverter.clip_rgb_color (2, -3, 1/4) = some (irgb, flags) ∧
      0 ≤ irgb.1 ∧ irgb.1 ≤ ((2 ^ testConverter.bit_depth - 1 : ℕ) : ℤ) ∧
      0 ≤ irgb.2.1 ∧ irgb.2.1 ≤ ((2 ^ testConverter.bit_depth - 1 : ℕ) : ℤ) ∧
      0 ≤ irgb.2.2 ∧ irgb.2.2 ≤ ((2 ^ testConverter.bit_depth - 1 : ℕ) : ℤ)) :=
  ⟨⟨Or.inr rfl, Or.inr rfl, rfl⟩,
    clip_rgb_color_total_in_range.1 testConverter (2, -3, 1/4) (Or.inr rfl)
      (Or.inr rfl) rfl⟩

/-- Scaling by a nonnegative factor commutes with the 3-way maximum. -/
theorem max3_smul (k : ℝ) (hk : 0 ≤ k) (v : ℝ × ℝ × ℝ) :
    max3 (k * v.1, k * v.2.1, k * v.2.2) = k * max3 v := by
  unfold max3
  dsimp only
  rw [mul_max_of_nonneg _ _ hk, mul_max_of_nonneg _ _ hk]

/-- Unfolding equation for brightest_rgb_from_xyz. -/
theorem brightest_rgb_from_xyz_eq (cc : ColorConverter) (xyz : ℝ × ℝ × ℝ) (mc : ℝ) :
    brightest_rgb_from_xyz cc xyz mc =
      if max3 (cc.rgb_from_xyz xyz) ≠ 0 then
        (mc / max3 (cc.rgb_from_xyz xyz) * (cc.rgb_from_xyz xyz).1,
         mc / max3 (cc.rgb_from_xyz xyz) * (cc.rgb_from_xyz xyz).2.1,
         mc / max3 (cc.rgb_from_xyz xyz) * (cc.rgb_from_xyz xyz).2.2)
      else cc.rgb_from_xyz xyz := rfl

/-- Counterexample for C8 as stated: an xyz input whose converted rgb is
(-1,-2,-3) — not pure black, and at or below the target 1.0 — yet
brightest_rgb_from_xyz rescales it to (1,2,3): its maximum channel is 3,
not the requested 1.0, and the call is not a no-op. -/
theorem brightest_rgb_counterexample :
    testConverter.rgb_from_xyz (-1, -2, -3) ≠ ((0 : ℝ), 0, 0) ∧
    max3 (testConverter.rgb_from_xyz (-1, -2, -3)) ≤ 1 ∧
    max3 (brightest_rgb_from_xyz testConverter (-1, -2, -3) 1) ≠ 1 ∧
    brightest_rgb_from_xyz testConverter (-1, -2, -3) 1 ≠
      testConverter.rgb_from_xyz (-1, -2, -3) := by
  have hrgb : testConverter.rgb_from_xyz (-1, -2, -3) = ((-1 : ℝ), -2, -3) := by
    norm_num [ColorConverter.rgb_from_xyz, testConverter, Mat3.id, Mat3.mulVec]
  have hmax : max3 (testConverter.rgb_from_xyz (-1, -2, -3)) = -1 := by
    rw [hrgb]
    norm_num [max3, max_def]
  have hbri : brightest_rgb_from_xyz testConverter (-1, -2, -3) 1 = ((1 : ℝ), 2, 3) := by
    rw [brightest_rgb_from_xyz_eq, hmax, if_pos (by norm_num), hrgb]
    norm_num
  refine ⟨?_, ?_, ?_, ?_⟩
  · rw [hrgb]
    norm_num [Prod.ext_iff]
  · rw [hmax]
    norm_num
  · rw [hbri]
    norm_num [max3, max_def]
  · rw [hbri, hrgb]
    norm_num [Prod.ext_iff]

/-- C8 (amended): brightest_rgb_from_xyz rescales every channel by
max_component / max(rgb) whenever max(rgb) ≠ 0 — so when the converted
rgb has positive maximum and max_component ≥ 0, the output maximum is
exactly max_component and the channel ratios are preserved (uniform
scaling); when the converted rgb has maximum 0 (in particular for pure
black) no division is performed and the rgb is returned unchanged.  It
is not a no-op on inputs below the target. -/
theorem brightest_rgb_scales_to_max (cc : ColorConverter) (xyz : ℝ × ℝ × ℝ) (mc : ℝ) :
    (max3 (cc.rgb_from_xyz xyz) ≠ 0 →
      brightest_rgb_from_xyz cc xyz mc =
        (mc / max3 (cc.rgb_from_xyz xyz) * (cc.rgb_from_xyz xyz).1,
         mc / max3 (cc.rgb_from_xyz xyz) * (cc.rgb_from_xyz xyz).2.1,
         mc / max3 (cc.rgb_from_xyz xyz) * (cc.rgb_from_xyz xyz).2.2)) ∧
    (0 < max3 (cc.rgb_from_xyz xyz) → 0 ≤ mc →
      max3 (brightest_rgb_from_xyz cc xyz mc) = mc) ∧
    (max3 (cc.rgb_from_xyz xyz) = 0 →
      brightest_rgb_from_xyz cc xyz mc = cc.rgb_from_xyz xyz) := by
  refine ⟨?_, ?_, ?_⟩
  · intro h
    rw [brightest_rgb_from_xyz_eq, if_pos h]
  · intro h hmc
    have hk : 0 ≤ mc / max3 (cc.rgb_from_xyz xyz) := div_nonneg hmc h.le
    rw [brightest_rgb_from_xyz_eq, if_pos h.ne',
      max3_smul _ hk (cc.rgb_from_xyz xyz), div_mul_cancel₀ mc h.ne']
  · intro h
    rw [brightest_rgb_from_xyz_eq, if_neg (by simp [h])]

/-- Witness for C8 (amended) at an in-gamut input with maximum 1/2. -/
theorem brightest_rgb_scales_to_max_witness :
    ((0 : ℝ) < max3 (testConverter.rgb_from_xyz (1/2, 1/4, 1/4)) ∧ (0 : ℝ) ≤ 1) ∧
    max3 (brightest_rgb_from_xyz testConverter (1/2, 1/4, 1/4) 1) = 1 :=
  ⟨⟨by norm_num [ColorConverter.rgb_from_xyz, testConverter, Mat3.id, Mat3.mulVec,
      max3, max_def], by norm_num⟩,
    (brightest_rgb_scales_to_max testConverter (1/2, 1/4, 1/4) 1).2.1
      (by norm_num [ColorConverter.rgb_from_xyz, testConverter, Mat3.id, Mat3.mulVec,
        max3, max_def]) (by norm_num)⟩

/-- Decoding inverts the uppercase hex digit encoding on 0 .. 15. -/
theorem hexDigitVal_hexDigitChar (n : ℕ) (h : n < 16) :
    hexDigitVal (hexDigitChar n) = some n := by
  interval_cases n <;> decide

/-- Decoding inverts the two-digit uppercase hex encoding on 0 .. 255. -/
theorem parseHexPair_hex (n : ℕ) (h : n < 256) :
    parseHexPair (hexDigitChar (n / 16)) (hexDigitChar (n % 16)) = some (n : ℤ) := by
  have h1 : n / 16 < 16 := Nat.div_lt_of_lt_mul (by omega)
  have h2 : n % 16 < 16 := Nat.mod_lt _ (by norm_num)
  simp only [parseHexPair, hexDigitVal_hexDigitChar _ h1, hexDigitVal_hexDigitChar _ h2,
    Option.bind_eq_bind, Option.some_bind]
  norm_num
  omega

/-- Decoding a 7-character string that starts with '#' reduces to
parsing the three digit pairs. -/
theorem irgb_from_irgb_string_cons (c1 c2 c3 c4 c5 c6 : Char) :
    irgb_from_irgb_string ⟨['#', c1, c2, c3, c4, c5, c6]⟩ = (do
      let ir ← parseHexPair c1 c2
      let ig ← parseHexPair c3 c4
      let ib ← parseHexPair c5 c6
      pure (ir, ig, ib)) := rfl

/-- C7: for components in 0 .. 255 the hex codec round-trips; the
encoder maps (171,19,210) to "#AB13D2"; and the decoder rejects every
string whose length is not exactly 7 or that does not start with '#'. -/
theorem hex_codec_roundtrip_and_rejects (r g b : ℤ)
    (hr : 0 ≤ r ∧ r ≤ 255) (hgg : 0 ≤ g ∧ g ≤ 255) (hbb : 0 ≤ b ∧ b ≤ 255) :
    irgb_from_irgb_string (irgb_string_from_irgb (r, g, b)).2 = some (r, g, b) ∧
    (irgb_string_from_irgb (171, 19, 210)).2 = "#AB13D2" ∧
    ∀ s : String, (s.length ≠ 7 ∨ s.data.head? ≠ some '#') →
      irgb_from_irgb_string s = none := by
  refine ⟨?_, by decide, ?_⟩
  · have hcr : min 255 (max 0 r) = r := by omega
    have hcg : min 255 (max 0 g) = g := by omega
    have hcb : min 255 (max 0 b) = b := by omega
    have hs : (irgb_string_from_irgb (r, g, b)).2 = "#" ++ hex2 r ++ hex2 g ++ hex2 b := by
      simp only [irgb_string_from_irgb, hcr, hcg, hcb]
    have he : ("#" ++ hex2 r ++ hex2 g ++ hex2 b : String) =
        ⟨['#', hexDigitChar (r.toNat / 16), hexDigitChar (r.toNat % 16),
          hexDigitChar (g.toNat / 16), hexDigitChar (g.toNat % 16),
          hexDigitChar (b.toNat / 16), hexDigitChar (b.toNat % 16)]⟩ := rfl
    rw [hs, he, irgb_from_irgb_string_cons,
      parseHexPair_hex r.toNat (by omega), parseHexPair_hex g.toNat (by omega),
      parseHexPair_hex b.toNat (by omega)]
    simp [Int.toNat_of_nonneg hr.1, Int.toNat_of_nonneg hgg.1, Int.toNat_of_nonneg hbb.1]
  · intro s hbad
    by_cases hl : s.length ≠ 7
    · rw [irgb_from_irgb_string, if_pos hl]
    · rcases hbad with hbad | hbad
      · exact absurd hbad hl
      · rw [irgb_from_irgb_string, if_neg hl, if_pos hbad]

/-- Witness for C7 at the components (171, 19, 210). -/
theorem hex_codec_roundtrip_and_rejects_witness :
    (((0 : ℤ) ≤ 171 ∧ (171 : ℤ) ≤ 255) ∧ ((0 : ℤ) ≤ 19 ∧ (19 : ℤ) ≤ 255) ∧
      ((0 : ℤ) ≤ 210 ∧ (210 : ℤ) ≤ 255)) ∧
    (irgb_from_irgb_string (irgb_string_from_irgb (171, 19, 210)).2 =
        some (171, 19, 210) ∧
      (irgb_string_from_irgb (171, 19, 210)).2 = "#AB13D2" ∧
      ∀ s : String, (s.length ≠ 7 ∨ s.data.head? ≠ some '#') →
        irgb_from_irgb_string s = none) :=
  ⟨⟨⟨by decide, by decide⟩, ⟨by decide, by decide⟩, ⟨by decide, by decide⟩⟩,
    hex_codec_roundtrip_and_rejects 171 19 210 ⟨by decide, by decide⟩
      ⟨by decide, by decide⟩ ⟨by decide, by decide⟩⟩
